import Mathlib

/-!
Verification of the token-and-variables scanner (a Figma plugin that scans a
design-document tree for design-token usage and unbound styling).

The definitions below are a shallow embedding of the plugin's code:
- `src/code.ts` : `extractVariableId`, `getUsedVariableIds`, the scope
  dispatch and document-scan loop of `getVariableCollections`, the
  per-collection enrichment (alias resolution, ghost detection), and the
  ignored-elements filter;
- `src/utils/color-utils.ts` : `rgbToHex`, `hexToRgb`.

JavaScript strings are modelled through `String.data` (`List Char`), JS
`Map`/`Set` as association lists preserving insertion order, JS numbers as
`ℚ` (the color math involved is exact at this granularity), and the
asynchronous host lookups (`figma.variables.getVariableByIdAsync`,
`figma.teamLibrary.getAvailableLibraryVariableCollectionsAsync`) as pure
oracles: a lookup function `String → Option _` resp. an
`Option (List String)` whose `none` case models the call throwing.
-/

set_option maxRecDepth 8000

namespace TokenScanner

/-! ## Character/string helpers shared by several source functions -/

/-- Hexadecimal digit per the source's regexes `[a-f\d]` and `[0-9A-F]`,
both used with the case-insensitive flag. -/
def isHexDigitChar (c : Char) : Bool :=
  if ('0' ≤ c ∧ c ≤ '9') ∨ ('a' ≤ c ∧ c ≤ 'f') ∨ ('A' ≤ c ∧ c ≤ 'F') then true else false

/-- Numeric value of a hexadecimal digit (used for JS `parseInt(s, 16)`). -/
def hexVal (c : Char) : ℕ :=
  if '0' ≤ c ∧ c ≤ '9' then c.toNat - 48
  else if 'a' ≤ c ∧ c ≤ 'f' then c.toNat - 87
  else if 'A' ≤ c ∧ c ≤ 'F' then c.toNat - 55
  else 0

/-- `s.substring(i+1)` after the first `'/'`, i.e. the tail following the
first slash; `none` when there is no slash (models `indexOf` returning -1). -/
def afterFirstSlash : List Char → Option (List Char)
  | [] => none
  | '/' :: rest => some rest
  | _ :: rest => afterFirstSlash rest

/-- JS `String.prototype.split(sep)` for a one-character separator. -/
def splitOnChar (sep : Char) (cs : List Char) : List (List Char) :=
  match cs with
  | [] => [[]]
  | c :: rest =>
    let r := splitOnChar sep rest
    if c = sep then [] :: r
    else
      match r with
      | [] => [[c]]
      | h :: t => (c :: h) :: t

/-! ## `extractVariableId` (src/code.ts lines 80-93)

Converts `"VariableID:abc123def456/12345:678"` to `"12345:678"` and
`"VariableID:12345:678"` to `"12345:678"`. -/

def extractVariableId (fullId : String) : String :=
  -- If there's a slash, take everything after it
  let cs := (afterFirstSlash fullId.data).getD fullId.data
  -- Remove the "VariableID:" marker if present (11 characters)
  if cs.take 11 = ['V','a','r','i','a','b','l','e','I','D',':'] then String.mk (cs.drop 11)
  else String.mk cs

/-! ## Color codec (src/utils/color-utils.ts) -/

/-- JS `Math.round` (round half toward positive infinity). -/
def jsRound (q : ℚ) : ℤ := ⌊q + 1/2⌋

/-- JS `Number.prototype.toString(16)` on an integer-valued number:
lowercase hex digits, with a leading `'-'` for negatives. -/
def jsIntToHexChars (i : ℤ) : List Char :=
  if i < 0 then '-' :: Nat.toDigits 16 i.natAbs else Nat.toDigits 16 i.toNat

/-- The `toHex` closure of `rgbToHex`: round `n * 255`, render in base 16,
pad a single digit with a leading `'0'`. -/
def toHexComponent (n : ℚ) : List Char :=
  let hex := jsIntToHexChars (jsRound (n * 255))
  if hex.length = 1 then '0' :: hex else hex

/-- `rgbToHex` (color-utils.ts lines 12-18): `` `#${..}${..}${..}`.toUpperCase() ``. -/
def rgbToHex (r g b : ℚ) : String :=
  String.mk (('#' :: (toHexComponent r ++ toHexComponent g ++ toHexComponent b)).map Char.toUpper)

/-- The host's normalized color record (components in the 0-1 range). -/
structure RGBA where
  r : ℚ
  g : ℚ
  b : ℚ
  a : ℚ
deriving DecidableEq

/-- `parseInt` of a two-hex-digit capture group. -/
def parseHexPair (c1 c2 : Char) : ℕ := 16 * hexVal c1 + hexVal c2

/-- The regex's optional leading `'#'`. -/
def stripHash (cs : List Char) : List Char :=
  match cs with
  | '#' :: t => t
  | t => t

/-- `hexToRgb` (color-utils.ts lines 25-33): matches
`/^#?([a-f\d]{2})([a-f\d]{2})([a-f\d]{2})$/i` and divides each captured pair
by 255; on no match returns `{r := 0, g := 0, b := 0, a := 1}`. -/
def hexToRgb (hex : String) : RGBA :=
  match stripHash hex.data with
  | [c1, c2, c3, c4, c5, c6] =>
    if isHexDigitChar c1 && isHexDigitChar c2 && isHexDigitChar c3 &&
        isHexDigitChar c4 && isHexDigitChar c5 && isHexDigitChar c6 then
      ⟨(parseHexPair c1 c2 : ℚ) / 255, (parseHexPair c3 c4 : ℚ) / 255,
        (parseHexPair c5 c6 : ℚ) / 255, 1⟩
    else ⟨0, 0, 0, 1⟩
  | _ => ⟨0, 0, 0, 1⟩

/-! ## Unbound elements and the ignore filter (src/code.ts lines 26-31, 561-594) -/

/-- The four flag kinds of `UnboundElement.type`. -/
inductive UnboundType where
  | textNoStyle      -- "text-no-style"
  | textPartialStyle -- "text-partial-style"
  | fillNoVariable   -- "fill-no-variable"
  | strokeNoVariable -- "stroke-no-variable"
deriving DecidableEq

structure UnboundElement where
  id : String
  name : String
  type : UnboundType
  details : Option String
deriving DecidableEq

/-- One entry of the by-value ignore list: a `(valueType, value)` pair. -/
structure ValueIgnore where
  valueType : String
  value : String
deriving DecidableEq

/-- Attempt of the regex `/#[0-9A-F]{6}/i` at the start of the text. -/
def hexColorAt : List Char → Option (List Char)
  | '#' :: rest =>
    let six := rest.take 6
    if six.length = 6 ∧ six.all isHexDigitChar then some ('#' :: six) else none
  | _ => none

/-- JS `details.match(/#[0-9A-F]{6}/i)`: the leftmost match of `'#'`
followed by six hex digits. -/
def findHexColor : List Char → Option (List Char)
  | [] => none
  | c :: rest =>
    match hexColorAt (c :: rest) with
    | some m => some m
    | none => findHexColor rest

/-- Body of the by-value loop in the filter callback (code.ts lines 572-590):
whether one by-value ignore entry causes `return false` for this element. -/
def matchesValueIgnore (ig : ValueIgnore) (el : UnboundElement) : Bool :=
  if ig.valueType = "stroke" ∧ el.type = .strokeNoVariable then
    match el.details with
    | some d =>
      match findHexColor d.data with
      | some m => decide (String.mk m = ig.value)
      | none => false
    | none => false
  else if ig.valueType = "fill" ∧ el.type = .fillNoVariable then
    match el.details with
    | some d =>
      match findHexColor d.data with
      | some m => decide (String.mk m = ig.value)
      | none => false
    | none => false
  else if ig.valueType = "text-no-style" ∧
      (el.type = .textNoStyle ∨ el.type = .textPartialStyle) then true
  else false

/-- `filteredUnboundElements` (code.ts lines 565-593): keep the elements
whose id is not ignored and which no by-value ignore entry matches. -/
def filteredUnboundElements (unboundElements : List UnboundElement)
    (ignoredByIds : List String) (ignoredByValues : List ValueIgnore) :
    List UnboundElement :=
  unboundElements.filter fun el =>
    !(ignoredByIds.contains el.id) &&
      !(ignoredByValues.any fun ig => matchesValueIgnore ig el)

/-- The hex color contained in the element's `details` string, extracted by
the same pattern match the filter uses (spec §4.5: "the element's resolved
hex color (extracted from its `details` string via pattern match)"). -/
def containedHexColor (el : UnboundElement) : Option String :=
  el.details.bind fun d => (findHexColor d.data).map String.mk

/-- The by-value matching rule exactly as claim C2 words it: a `stroke`
(resp. `fill`) value-ignore suppresses only `stroke-no-variable` (resp.
`fill-no-variable`) elements whose contained hex color equals the ignored
value; a `text-no-style` value-ignore suppresses both text flag kinds
regardless of value. -/
def suppressesByValue (ig : ValueIgnore) (el : UnboundElement) : Prop :=
  (ig.valueType = "stroke" ∧ el.type = .strokeNoVariable ∧
    containedHexColor el = some ig.value) ∨
  (ig.valueType = "fill" ∧ el.type = .fillNoVariable ∧
    containedHexColor el = some ig.value) ∨
  (ig.valueType = "text-no-style" ∧
    (el.type = .textNoStyle ∨ el.type = .textPartialStyle))

/-! ## Tree Scanner: `getUsedVariableIds` (src/code.ts lines 298-351)

A node's `boundVariables` maps property keys to either a single binding,
an array of bindings, or a nested keyed object of bindings; entries of the
latter two that carry no `id` are skipped. -/

/-- One value of the `boundVariables` record. `nullB` models a falsy
binding; list entries model array/nested-object members, `none` standing
for a member without an `id` field. -/
inductive Binding where
  | nullB
  | single (id : String)
  | many (ids : List (Option String))
  | nested (ids : List (Option String))
deriving DecidableEq

/-- The raw ids a single binding contributes, in iteration order. -/
def bindingIds : Binding → List String
  | .nullB => []
  | .single i => [i]
  | .many ids => ids.filterMap id
  | .nested ids => ids.filterMap id

/-- All raw ids of a node's `boundVariables`, in key iteration order. -/
def boundVarsIds (bvs : List (String × Binding)) : List String :=
  bvs.flatMap fun kv => bindingIds kv.2

mutual
/-- A scene node: id, name, `boundVariables` record, children. A node
without `boundVariables` is modelled by the empty record. -/
inductive FNode where
  | mk (id : String) (name : String) (boundVars : List (String × Binding)) (children : FKids)
deriving DecidableEq

inductive FKids where
  | nil
  | cons (n : FNode) (rest : FKids)
deriving DecidableEq
end

def FNode.id : FNode → String
  | .mk i _ _ _ => i

def FNode.name : FNode → String
  | .mk _ nm _ _ => nm

/-- The `variableToNodes` map: insertion-ordered association list of
(variable id, insertion-ordered node-id set). -/
abbrev UsageMap := List (String × List String)

/-- The `addVariableUsage` closure (code.ts lines 313-318): create the set
on first use of the key, then `Set.add` the node id (a no-op when already
present). -/
def addVariableUsage : UsageMap → String → String → UsageMap
  | [], varId, nodeId => [(varId, [nodeId])]
  | (k, l) :: rest, varId, nodeId =>
    if k = varId then (k, if nodeId ∈ l then l else l ++ [nodeId]) :: rest
    else (k, l) :: addVariableUsage rest varId nodeId

/-- Record every raw id of one node's bindings against that node. -/
def addNodeBindings (m : UsageMap) (nodeId : String) (ids : List String) : UsageMap :=
  ids.foldl (fun acc varId => addVariableUsage acc varId nodeId) m

mutual
/-- `getUsedVariableIds` (code.ts lines 298-351): record this node's raw
binding ids, then recurse into the children. The source's `debugOnce`
logging flag has no effect on the map and is omitted. -/
def getUsedVariableIds : FNode → UsageMap → UsageMap
  | .mk nodeId _ bvs kids, m => scanChildren kids (addNodeBindings m nodeId (boundVarsIds bvs))

def scanChildren : FKids → UsageMap → UsageMap
  | .nil, m => m
  | .cons n rest, m => scanChildren rest (getUsedVariableIds n m)
end

mutual
/-- All raw binding ids occurring in a tree, in traversal order. -/
def nodeRawIds : FNode → List String
  | .mk _ _ bvs kids => boundVarsIds bvs ++ kidsRawIds kids

def kidsRawIds : FKids → List String
  | .nil => []
  | .cons n rest => nodeRawIds n ++ kidsRawIds rest
end

def usageKeys (m : UsageMap) : List String := m.map Prod.fst

/-- Scanning a list of roots into one shared map, as the scope branches of
`getVariableCollections` do (code.ts lines 374-377, 386-403, 408). -/
def scanRoots (roots : List FNode) : UsageMap :=
  roots.foldl (fun m n => getUsedVariableIds n m) []

/-! ## Scope dispatch and the document-scan loop (src/code.ts lines 354-410) -/

/-- Selection-info construction (code.ts lines 365-372). -/
def buildSelectionInfo (selectionNames : List String) : String :=
  if selectionNames.length = 1 then selectionNames.headD ""
  else if selectionNames.length ≤ 3 then String.intercalate ", " selectionNames
  else
    String.intercalate ", " (selectionNames.take 2) ++ " + " ++
      toString (selectionNames.length - 2) ++ " more"

inductive ScanMode where
  | page
  | selection
  | document
deriving DecidableEq

/-- The selection-info format exactly as claim C4 words it: one root gives
the name verbatim, two or three give all names joined with `", "`, four or
more give `"R1, R2 + (n-2) more"`. -/
def selectionInfoSpec (names : List String) : String :=
  match names with
  | [n] => n
  | ns =>
    if ns.length ≤ 3 then String.intercalate ", " ns
    else ns.headD "" ++ ", " ++ ns.tail.headD "" ++ " + " ++ toString (ns.length - 2) ++ " more"

/-- The scope dispatch of `getVariableCollections` (code.ts lines 360-410),
projected to the data the claims are about: which usage map is built and
which `selectionInfo` is returned. `mode = selection` with a non-empty
selection scans the selected roots; `document` scans all page roots; every
other case — including `selection` with an empty selection — scans the
current page with `selectionInfo` left `undefined`. -/
def getVariableCollectionsScanPhase (mode : ScanMode) (selection : List FNode)
    (allPages : List FNode) (currentPage : FNode) : UsageMap × Option String :=
  if mode = .selection ∧ 0 < selection.length then
    (scanRoots selection, some (buildSelectionInfo (selection.map FNode.name)))
  else if mode = .document then
    (scanRoots allPages, some (toString allPages.length ++ " pages"))
  else
    (scanRoots [currentPage], none)

/-- Observable steps of the document-scope loop (code.ts lines 386-403):
the `scan-progress` message posted to the UI, the scan of one page
(`getUsedVariableIds` + `scanUnboundElements`), and the
`await new Promise(resolve => setTimeout(resolve, 0))` yield. -/
inductive ScanEvent where
  | progress (current total : ℕ) (pageName : String)
  | scanPage (pageName : String)
  | yieldToUI
deriving DecidableEq

/-- Body of `for (let i = 0; i < allPages.length; i++)` (code.ts lines
386-403) as an event trace: each iteration posts the progress message,
scans the page, then yields. -/
def docScanLoop (total : ℕ) : ℕ → List FNode → List ScanEvent
  | _, [] => []
  | i, p :: rest =>
    .progress (i + 1) total p.name :: .scanPage p.name :: .yieldToUI :: docScanLoop total (i + 1) rest

def documentScanTrace (allPages : List FNode) : List ScanEvent :=
  docScanLoop allPages.length 0 allPages

/-! ## Collection enrichment (src/code.ts lines 467-556)

Host lookups are oracles: `getVariableById : String → Option VarRec` models
`figma.variables.getVariableByIdAsync` (with `none` for a null result), and
`availableLibraryKeys : Option (List String)` models
`figma.teamLibrary.getAvailableLibraryVariableCollectionsAsync`, `none`
standing for the call throwing. -/

/-- A literal (non-alias) variable value. -/
inductive LitVal where
  | floatVal (q : ℚ)
  | strVal (s : String)
  | boolVal (b : Bool)
  | colorVal (c : RGBA)
deriving DecidableEq

/-- One entry of a variable's `valuesByMode`: either a
`{type: 'VARIABLE_ALIAS', id}` reference or a literal value. -/
inductive ModeValue where
  | variableAlias (id : String)
  | lit (v : LitVal)
deriving DecidableEq

/-- An enriched cell of the output table: either a string rendered by alias
resolution, or the value passed through unchanged (`none` models
`undefined`, i.e. a declared mode the variable carries no value for). -/
inductive CellValue where
  | rendered (s : String)
  | passthrough (v : Option LitVal)
deriving DecidableEq

/-- A resolved variable record as returned by the host. -/
structure VarRec where
  id : String
  name : String
  resolvedType : String
  valuesByMode : List (String × ModeValue)
deriving DecidableEq

/-- JS object indexing `record[key]` for the string-keyed records above. -/
def assocLookup {α : Type} : List (String × α) → String → Option α
  | [], _ => none
  | (k, v) :: rest, key => if k = key then some v else assocLookup rest key

/-- The alias-rendering branch of the enrichment loop (code.ts lines
493-499). The arrow literal of the source file is the byte sequence
`â†’` (a double-UTF-8-encoded RIGHTWARDS ARROW), reproduced
here exactly. -/
def resolveModeValue (getVariableById : String → Option VarRec)
    (value : Option ModeValue) : CellValue :=
  match value with
  | some (.variableAlias aliasId) =>
    match getVariableById aliasId with
    | some aliasedVariable => .rendered ("â†’ " ++ aliasedVariable.name)
    | none => .rendered "Unknown alias"
  | some (.lit v) => .passthrough (some v)
  | none => .passthrough none

/-- The per-mode loop of the enrichment (code.ts lines 487-500): for every
declared mode of the collection, resolve the variable's value for that
mode. -/
def enrichVariableValues (getVariableById : String → Option VarRec)
    (modes : List (String × String)) (valuesByMode : List (String × ModeValue)) :
    List (String × CellValue) :=
  modes.map fun m => (m.1, resolveModeValue getVariableById (assocLookup valuesByMode m.1))

/-- The cell value claim C6 predicts for one mode, in the claim's own
words: an alias renders `"→ <name>"` (with the genuine RIGHTWARDS ARROW
`→`), an unresolvable alias the fixed placeholder, and a non-alias
value passes through unchanged. -/
def cellValueSpec (getVariableById : String → Option VarRec)
    (value : Option ModeValue) : CellValue :=
  match value with
  | some (.variableAlias aliasId) =>
    match getVariableById aliasId with
    | some aliasedVariable => .rendered ("→ " ++ aliasedVariable.name)
    | none => .rendered "Unknown alias"
  | some (.lit v) => .passthrough (some v)
  | none => .passthrough none

/-- Remote-library enrichment (code.ts lines 517-542): for a remote
collection with a truthy key, `libraryName` is the last `'/'`-delimited
segment of the key, and `isGhost` is set when the enumerable team-library
keys do not contain the collection's key — with the `catch` branch leaving
`isGhost` at its `false` initialisation when the enumeration throws. -/
def deriveLibraryInfo (remote : Bool) (key : String)
    (availableLibraryKeys : Option (List String)) : Bool × Option String :=
  if remote ∧ key ≠ "" then
    let keyParts := splitOnChar '/' key.data
    let libraryName := if 0 < keyParts.length then String.mk (keyParts.getLastD []) else key
    let isGhost :=
      match availableLibraryKeys with
      | some libs => !(libs.contains key)
      | none => false
    (isGhost, some libraryName)
  else (false, none)

/-- The usage grouping carried into enrichment: a used variable id plus the
node ids referencing it. -/
structure VarWithNodes where
  id : String
  nodeIds : List String
deriving DecidableEq

/-- A resolved collection record as returned by the host. -/
structure CollRec where
  id : String
  name : String
  modes : List (String × String)
  remote : Bool
  key : String
deriving DecidableEq

structure PluginVariableData where
  id : String
  name : String
  resolvedType : String
  valuesByMode : List (String × CellValue)
  nodeIds : List String
  isRemote : Bool
deriving DecidableEq

structure PluginCollectionData where
  id : String
  name : String
  modes : List (String × String)
  -- the source field is named `variables`, a reserved word in Lean
  vars : List PluginVariableData
  isRemote : Bool
  libraryName : Option String
  isGhost : Bool
deriving DecidableEq

/-- The per-variable enrichment (code.ts lines 482-511): re-fetch the
variable; a null result contributes nothing, otherwise build the enriched
record. -/
def buildVariableData (getVariableById : String → Option VarRec) (coll : CollRec)
    (vw : VarWithNodes) : Option PluginVariableData :=
  match getVariableById vw.id with
  | some v =>
    some
      { id := v.id
        name := v.name
        resolvedType := v.resolvedType
        valuesByMode := enrichVariableValues getVariableById coll.modes v.valuesByMode
        nodeIds := vw.nodeIds
        isRemote := coll.remote }
  | none => none

/-- The collections loop of `getVariableCollections` (code.ts lines
467-556): enrich each collection's used variables and push the collection
only when at least one variable survived (`variablesData.length > 0`). -/
def buildCollectionsData (getVariableById : String → Option VarRec)
    (availableLibraryKeys : Option (List String))
    (variablesByCollection : List (String × List VarWithNodes))
    (collections : List CollRec) : List PluginCollectionData :=
  collections.foldl
    (fun acc coll =>
      let usedVarsInCollection := (assocLookup variablesByCollection coll.id).getD []
      let variablesData := usedVarsInCollection.filterMap (buildVariableData getVariableById coll)
      if 0 < variablesData.length then
        let info := deriveLibraryInfo coll.remote coll.key availableLibraryKeys
        acc ++
          [{ id := coll.id
             name := coll.name
             modes := coll.modes
             vars := variablesData
             isRemote := coll.remote
             libraryName := info.2
             isGhost := info.1 }]
      else acc)
    []

/-! ## Concrete instances used by witnesses and counterexamples -/

/-- A leaf node whose single fill binding carries a library-prefixed raw id. -/
def demoPrefixedNode : FNode :=
  .mk "1:1" "Rect" [("fills", .many [some "VariableID:abc123def456/12345:678"])] .nil

/-- A node referencing the same variable through a fill and a stroke slot. -/
def demoDoubleRefNode : FNode :=
  .mk "2:2" "Frame" [("fills", .many [some "VariableID:5:5"]), ("strokes", .many [some "VariableID:5:5"])] .nil

/-- Host variable table with one variable named "Brand/Blue". -/
def demoGetVariableById : String → Option VarRec :=
  fun id =>
    if id = "VariableID:9:9" then
      some { id := "VariableID:9:9", name := "Brand/Blue", resolvedType := "COLOR",
             valuesByMode := [("m1", .lit (.colorVal ⟨0, 0, 1, 1⟩))] }
    else if id = "VariableID:7:7" then
      some { id := "VariableID:7:7", name := "Accent", resolvedType := "COLOR",
             valuesByMode := [("m1", .variableAlias "VariableID:9:9"), ("m2", .variableAlias "VariableID:404:404")] }
    else none

def demoCollection : CollRec :=
  { id := "VariableCollectionId:1:1", name := "Palette",
    modes := [("m1", "Light"), ("m2", "Dark")], remote := false, key := "" }

def demoVariablesByCollection : List (String × List VarWithNodes) :=
  [("VariableCollectionId:1:1", [{ id := "VariableID:7:7", nodeIds := ["1:1"] }])]

/-- The collection data the demo inputs enrich to. -/
def demoCollectionsData : List PluginCollectionData :=
  buildCollectionsData demoGetVariableById none demoVariablesByCollection [demoCollection]

/-- Two concrete page roots for the document-scan witnesses. -/
def demoPageA : FNode := .mk "p:1" "Cover" [] .nil

def demoPageB : FNode := .mk "p:2" "Components" [] .nil

/-- The enriched output the demo inputs produce (used by the C7 witness). -/
def demoEnrichedCollection : PluginCollectionData :=
  { id := "VariableCollectionId:1:1"
    name := "Palette"
    modes := [("m1", "Light"), ("m2", "Dark")]
    vars := [{ id := "VariableID:7:7", name := "Accent", resolvedType := "COLOR",
               valuesByMode := [("m1", .rendered "â†’ Brand/Blue"), ("m2", .rendered "Unknown alias")],
               nodeIds := ["1:1"], isRemote := false }]
    isRemote := false
    libraryName := none
    isGhost := false }


/-! ## Definitions supporting the codec claim (C9) -/

/-- The 22 characters the source's case-insensitive hex regexes accept. -/
def hexDigits : List Char := "0123456789abcdefABCDEF".data

/-- Two-digit lowercase hex rendering of a nonnegative value — what the
`toHex` closure produces for a byte value. -/
def natHexPadded (k : ℕ) : List Char :=
  let h := Nat.toDigits 16 k
  if h.length = 1 then '0' :: h else h

/-- Uppercase hexadecimal digit (for the output-shape part of C9). -/
def isUpperHexDigit (c : Char) : Bool :=
  if ('0' ≤ c ∧ c ≤ '9') ∨ ('A' ≤ c ∧ c ≤ 'F') then true else false

/-- The output shape claim C9 predicts for `rgbToHex`: a `'#'` followed by
exactly six uppercase hex digits. -/
def hexOutputShape (s : String) : Bool :=
  match s.data with
  | [] => false
  | c :: rest => decide (c = '#') && (rest.length == 6) && rest.all isUpperHexDigit

/-! ## Helper lemmas -/

/-- Every node-id set of the usage map is duplicate-free. -/
def UsageInv (m : UsageMap) : Prop := ∀ p ∈ m, (p.2).Nodup

theorem addVariableUsage_inv (m : UsageMap) (v nid : String) (h : UsageInv m) :
    UsageInv (addVariableUsage m v nid) := by
  induction m with
  | nil =>
    intro p hp
    simp only [addVariableUsage, List.mem_singleton] at hp
    subst hp; simp
  | cons hd tl ih =>
    intro p hp
    obtain ⟨k, l⟩ := hd
    simp only [addVariableUsage] at hp
    split at hp
    · rcases List.mem_cons.1 hp with h1 | h2
      · subst h1
        by_cases hm : nid ∈ l
        · simpa [hm] using h (k, l) (by simp)
        · simp only [hm, if_false]
          exact List.Nodup.append (h (k, l) (by simp)) (by simp) (by simp [hm])
      · exact h p (List.mem_cons_of_mem _ h2)
    · rcases List.mem_cons.1 hp with h1 | h2
      · subst h1; exact h (k, l) (by simp)
      · exact ih (fun q hq => h q (List.mem_cons_of_mem _ hq)) p h2

theorem addNodeBindings_inv (ids : List String) (m : UsageMap) (nid : String)
    (h : UsageInv m) : UsageInv (addNodeBindings m nid ids) := by
  induction ids generalizing m with
  | nil => exact h
  | cons a t ih => exact ih _ (addVariableUsage_inv _ _ _ h)

mutual
theorem getUsedVariableIds_inv (n : FNode) (m : UsageMap) (h : UsageInv m) :
    UsageInv (getUsedVariableIds n m) :=
  match n with
  | .mk nid nm bvs kids => by
    show UsageInv (scanChildren kids (addNodeBindings m nid (boundVarsIds bvs)))
    exact scanChildren_inv kids _ (addNodeBindings_inv _ _ _ h)

theorem scanChildren_inv (kk : FKids) (m : UsageMap) (h : UsageInv m) :
    UsageInv (scanChildren kk m) :=
  match kk with
  | .nil => h
  | .cons n rest => by
    show UsageInv (scanChildren rest (getUsedVariableIds n m))
    exact scanChildren_inv rest _ (getUsedVariableIds_inv n m h)
end

theorem scanRoots_inv (roots : List FNode) : UsageInv (scanRoots roots) := by
  have aux : ∀ (rs : List FNode) (m : UsageMap), UsageInv m →
      UsageInv (rs.foldl (fun acc n => getUsedVariableIds n acc) m) := by
    intro rs
    induction rs with
    | nil => intro m hm; exact hm
    | cons n t ih => intro m hm; exact ih _ (getUsedVariableIds_inv n m hm)
  exact aux roots [] (by intro p hp; simp at hp)

/-! ## C8 -/

/-- C8: the usage map built by the Tree Scanner has set semantics — a node
referencing the same token through two or more binding slots occurs exactly
once in that token's node set. -/
theorem C8_usage_set_semantics (roots : List FNode) (p : String × List String)
    (nodeId : String) (hp : p ∈ scanRoots roots) (hn : nodeId ∈ p.2) :
    p.2.count nodeId = 1 :=
  List.count_eq_one_of_mem (scanRoots_inv roots p hp) hn

/-- Witness for C8 at a node bound to one token through both a fill and a
stroke slot: its id is recorded exactly once. -/
theorem C8_usage_set_semantics_witness :
    ("VariableID:5:5", ["2:2"]) ∈ scanRoots [demoDoubleRefNode] ∧
      ("2:2" : String) ∈ ["2:2"] ∧
      (["2:2"] : List String).count "2:2" = 1 :=
  ⟨by decide, by decide,
    C8_usage_set_semantics [demoDoubleRefNode] ("VariableID:5:5", ["2:2"]) "2:2"
      (by decide) (by decide)⟩

/-! ## C1 -/

/-- C1, counterexample: the Tree Scanner records the raw binding id
unchanged; with a binding id carrying the `VariableID:` marker and a
library path segment, the map's key is the raw id itself, which differs
from its `extractVariableId` normalization — refuting the claim that every
key equals `extractVariableId` of the raw binding id. -/
theorem C1_raw_id_not_normalized_cex :
    usageKeys (scanRoots [demoPrefixedNode]) = ["VariableID:abc123def456/12345:678"] ∧
    nodeRawIds demoPrefixedNode = ["VariableID:abc123def456/12345:678"] ∧
    extractVariableId "VariableID:abc123def456/12345:678" = "12345:678" ∧
    ¬ (∀ k ∈ usageKeys (scanRoots [demoPrefixedNode]),
        ∃ raw ∈ nodeRawIds demoPrefixedNode, k = extractVariableId raw) :=
  ⟨by decide, by decide, by decide, by decide⟩

theorem usageKeys_addVariableUsage (m : UsageMap) (v nid k : String) :
    k ∈ usageKeys (addVariableUsage m v nid) ↔ k ∈ usageKeys m ∨ k = v := by
  induction m with
  | nil => simp [addVariableUsage, usageKeys]
  | cons hd tl ih =>
    obtain ⟨k0, l⟩ := hd
    simp only [addVariableUsage]
    split
    · next heq => subst heq; simp [usageKeys]; tauto
    · next hne =>
      simp only [usageKeys, List.map_cons, List.mem_cons] at ih ⊢
      rw [or_assoc] at *
      constructor
      · rintro (h1 | h2)
        · exact Or.inl h1
        · exact Or.inr (ih.1 h2)
      · rintro (h1 | h2)
        · exact Or.inl h1
        · exact Or.inr (ih.2 h2)

theorem usageKeys_addNodeBindings (ids : List String) (m : UsageMap) (nid k : String) :
    k ∈ usageKeys (addNodeBindings m nid ids) ↔ k ∈ usageKeys m ∨ k ∈ ids := by
  induction ids generalizing m with
  | nil => simp [addNodeBindings]
  | cons a t ih =>
    show k ∈ usageKeys (addNodeBindings (addVariableUsage m a nid) nid t) ↔ _
    rw [ih, usageKeys_addVariableUsage]
    simp only [List.mem_cons]
    tauto

mutual
theorem usageKeys_getUsedVariableIds (n : FNode) (m : UsageMap) (k : String) :
    k ∈ usageKeys (getUsedVariableIds n m) ↔ k ∈ usageKeys m ∨ k ∈ nodeRawIds n :=
  match n with
  | .mk nid nm bvs kids => by
    show k ∈ usageKeys (scanChildren kids (addNodeBindings m nid (boundVarsIds bvs))) ↔ _
    rw [usageKeys_scanChildren kids _ k, usageKeys_addNodeBindings]
    show _ ↔ k ∈ usageKeys m ∨ k ∈ boundVarsIds bvs ++ kidsRawIds kids
    rw [List.mem_append]
    tauto

theorem usageKeys_scanChildren (kk : FKids) (m : UsageMap) (k : String) :
    k ∈ usageKeys (scanChildren kk m) ↔ k ∈ usageKeys m ∨ k ∈ kidsRawIds kk :=
  match kk with
  | .nil => by
    show k ∈ usageKeys m ↔ k ∈ usageKeys m ∨ k ∈ ([] : List String)
    simp
  | .cons n rest => by
    show k ∈ usageKeys (scanChildren rest (getUsedVariableIds n m)) ↔
      k ∈ usageKeys m ∨ k ∈ nodeRawIds n ++ kidsRawIds rest
    rw [usageKeys_scanChildren rest _ k, usageKeys_getUsedVariableIds n m k, List.mem_append]
    tauto
end

/-- C1, amended: each resolvable binding's identifier is recorded into the
usage map unchanged — `extractVariableId` is never applied during the scan —
so the keys of the returned `usedVariableIds` map are exactly the raw
binding ids occurring in the scanned trees. -/
theorem C1_usage_map_keys_are_raw_ids (roots : List FNode) (k : String) :
    k ∈ usageKeys (scanRoots roots) ↔ ∃ n ∈ roots, k ∈ nodeRawIds n := by
  have aux : ∀ (rs : List FNode) (m : UsageMap),
      k ∈ usageKeys (rs.foldl (fun acc n => getUsedVariableIds n acc) m) ↔
        k ∈ usageKeys m ∨ ∃ n ∈ rs, k ∈ nodeRawIds n := by
    intro rs
    induction rs with
    | nil => simp
    | cons n t ih =>
      intro m
      show k ∈ usageKeys (t.foldl _ (getUsedVariableIds n m)) ↔ _
      rw [ih, usageKeys_getUsedVariableIds]
      simp only [List.mem_cons]
      constructor
      · rintro ((h | h) | ⟨n0, hn0, h⟩)
        · exact Or.inl h
        · exact Or.inr ⟨n, Or.inl rfl, h⟩
        · exact Or.inr ⟨n0, Or.inr hn0, h⟩
      · rintro (h | ⟨n0, (rfl | hn0), h⟩)
        · exact Or.inl (Or.inl h)
        · exact Or.inl (Or.inr h)
        · exact Or.inr ⟨n0, hn0, h⟩
  rw [scanRoots, aux]
  simp [usageKeys]

/-! ## C10 -/

/-- C10: a `selection`-scope scan with an empty selection falls back to
scanning the current page exactly as `page` scope does, and its
`selectionInfo` is `undefined`. -/
theorem C10_empty_selection_fallback (selection allPages : List FNode) (currentPage : FNode) :
    getVariableCollectionsScanPhase .selection [] allPages currentPage =
      getVariableCollectionsScanPhase .page selection allPages currentPage ∧
    (getVariableCollectionsScanPhase .selection [] allPages currentPage).2 = none := by
  constructor <;> simp [getVariableCollectionsScanPhase]

/-! ## C4 -/

/-- C4: selection-info formatting — one root verbatim, two or three roots
comma-joined, four or more rendered as `"R1, R2 + (n-2) more"`. -/
theorem C4_selection_info_format (names : List String) (h : 0 < names.length) :
    buildSelectionInfo names = selectionInfoSpec names := by
  match names with
  | [] => simp at h
  | [a] => rfl
  | [a, b] => rfl
  | [a, b, c] => rfl
  | a :: b :: c :: d :: t =>
    simp only [buildSelectionInfo, selectionInfoSpec, List.length_cons]
    rw [if_neg (by omega), if_neg (by omega), if_neg (by omega)]
    rfl

/-- Witness for C4 on the four-root selection from the claim. -/
theorem C4_selection_info_format_witness :
    0 < (["A", "B", "C", "D"] : List String).length ∧
      buildSelectionInfo ["A", "B", "C", "D"] = selectionInfoSpec ["A", "B", "C", "D"] ∧
      buildSelectionInfo ["A", "B", "C", "D"] = "A, B + 2 more" :=
  ⟨by decide, C4_selection_info_format ["A", "B", "C", "D"] (by decide), by decide⟩

/-! ## C5 -/

theorem splitOnChar_ne_nil (sep : Char) (cs : List Char) : splitOnChar sep cs ≠ [] := by
  match cs with
  | [] => simp [splitOnChar]
  | c :: rest =>
    simp only [splitOnChar]
    split
    · simp
    · split <;> simp

/-- C5: for a remote collection with a (truthy) key, `isGhost` is true
exactly when the key is absent from the enumerable team-library set, is
false when the enumeration throws (fail open), and `libraryName` is the
last `'/'`-delimited segment of the key. -/
theorem C5_ghost_detection (key : String) (libs : List String) (h : key ≠ "") :
    ((deriveLibraryInfo true key (some libs)).1 = true ↔ key ∉ libs) ∧
    (deriveLibraryInfo true key none).1 = false ∧
    (deriveLibraryInfo true key (some libs)).2 =
      some (String.mk ((splitOnChar '/' key.data).getLastD [])) ∧
    (deriveLibraryInfo true key none).2 =
      some (String.mk ((splitOnChar '/' key.data).getLastD [])) := by
  have hlen : 0 < (splitOnChar '/' key.data).length :=
    List.length_pos.2 (splitOnChar_ne_nil '/' key.data)
  refine ⟨?_, ?_, ?_, ?_⟩ <;>
    simp [deriveLibraryInfo, h, hlen, List.contains, List.elem_iff]

/-- Witness for C5 on a remote key absent from the library set. -/
theorem C5_ghost_detection_witness :
    (("team123/Colors" : String) ≠ "") ∧
      (((deriveLibraryInfo true "team123/Colors" (some ["otherKey"])).1 = true ↔
          ("team123/Colors" : String) ∉ (["otherKey"] : List String)) ∧
        (deriveLibraryInfo true "team123/Colors" none).1 = false ∧
        (deriveLibraryInfo true "team123/Colors" (some ["otherKey"])).2 =
          some (String.mk ((splitOnChar '/' ("team123/Colors" : String).data).getLastD [])) ∧
        (deriveLibraryInfo true "team123/Colors" none).2 =
          some (String.mk ((splitOnChar '/' ("team123/Colors" : String).data).getLastD []))) :=
  ⟨by decide, C5_ghost_detection "team123/Colors" ["otherKey"] (by decide)⟩

/-! ## C6 -/

/-- C6: alias rendering. The source does resolve aliases without throwing,
renders unresolvable aliases as the fixed `"Unknown alias"` placeholder and
passes literals through unchanged — but the rendered alias marker is the
double-encoded byte sequence `"â†’ "`, not the `"→ "` the spec
describes, so the code diverges from the claim's rendered string (and from
the consuming UI's own alias check). -/
theorem C6_alias_rendering_mojibake :
    resolveModeValue demoGetVariableById (some (.variableAlias "VariableID:9:9")) =
      .rendered ("\u00E2\u2020\u2019 Brand/Blue") ∧
    cellValueSpec demoGetVariableById (some (.variableAlias "VariableID:9:9")) =
      .rendered ("\u2192 Brand/Blue") ∧
    resolveModeValue demoGetVariableById (some (.variableAlias "VariableID:9:9")) ≠
      cellValueSpec demoGetVariableById (some (.variableAlias "VariableID:9:9")) ∧
    resolveModeValue demoGetVariableById (some (.variableAlias "VariableID:404:404")) =
      .rendered "Unknown alias" ∧
    resolveModeValue demoGetVariableById (some (.lit (.floatVal 4))) =
      .passthrough (some (.floatVal 4)) ∧
    resolveModeValue demoGetVariableById none = .passthrough none :=
  ⟨by decide, by decide, by decide, by decide, by decide, by decide⟩

/-! ## C7 -/

/-- C7: no collection in the enricher's output has an empty `variables`
array — a collection is pushed only when at least one of its used tokens
survived enrichment. -/
theorem C7_no_empty_collections (getVariableById : String → Option VarRec)
    (availableLibraryKeys : Option (List String))
    (variablesByCollection : List (String × List VarWithNodes))
    (collections : List CollRec) (cd : PluginCollectionData)
    (hcd : cd ∈ buildCollectionsData getVariableById availableLibraryKeys
      variablesByCollection collections) :
    cd.vars ≠ [] := by
  have aux : ∀ (colls : List CollRec) (acc : List PluginCollectionData),
      (∀ c ∈ acc, c.vars ≠ []) →
      ∀ c ∈ colls.foldl
        (fun acc coll =>
          let usedVarsInCollection := (assocLookup variablesByCollection coll.id).getD []
          let variablesData :=
            usedVarsInCollection.filterMap (buildVariableData getVariableById coll)
          if 0 < variablesData.length then
            let info := deriveLibraryInfo coll.remote coll.key availableLibraryKeys
            acc ++
              [{ id := coll.id, name := coll.name, modes := coll.modes,
                 vars := variablesData, isRemote := coll.remote,
                 libraryName := info.2, isGhost := info.1 }]
          else acc) acc, c.vars ≠ [] := by
    intro colls
    induction colls with
    | nil => intro acc hacc c hc; exact hacc c hc
    | cons coll t ih =>
      intro acc hacc c hc
      refine ih _ ?_ c hc
      intro c0 hc0
      dsimp only at hc0
      split at hc0
      case isTrue hpos =>
        rcases List.mem_append.1 hc0 with h1 | h2
        · exact hacc c0 h1
        · rw [List.mem_singleton.1 h2]
          simpa using List.length_pos.1 hpos
      case isFalse hpos => exact hacc c0 hc0
  exact aux collections [] (by intro c hc; simp at hc) cd hcd

/-- Witness for C7 on the demo enrichment inputs. -/
theorem C7_no_empty_collections_witness :
    demoEnrichedCollection ∈ demoCollectionsData ∧ demoEnrichedCollection.vars ≠ [] :=
  ⟨by decide,
    C7_no_empty_collections demoGetVariableById none demoVariablesByCollection
      [demoCollection] demoEnrichedCollection (by decide)⟩

/-! ## C2 -/

theorem matchesValueIgnore_iff (ig : ValueIgnore) (el : UnboundElement) :
    matchesValueIgnore ig el = true ↔ suppressesByValue ig el := by
  unfold matchesValueIgnore suppressesByValue
  split_ifs with h1 h2 h3
  · obtain ⟨hv, ht⟩ := h1
    cases hd : el.details with
    | none => simp [containedHexColor, hd, hv, ht]
    | some d =>
      cases hm : findHexColor d.data with
      | none => simp [containedHexColor, hd, hm, hv, ht]
      | some mm => simp [containedHexColor, hd, hm, hv, ht]
  · obtain ⟨hv, ht⟩ := h2
    cases hd : el.details with
    | none => simp [containedHexColor, hd, hv, ht]
    | some d =>
      cases hm : findHexColor d.data with
      | none => simp [containedHexColor, hd, hm, hv, ht]
      | some mm => simp [containedHexColor, hd, hm, hv, ht]
  · obtain ⟨hv, ht⟩ := h3
    simp [hv, ht]
  · simp only [Bool.false_eq_true, false_iff]
    rintro (⟨hv, ht, _⟩ | ⟨hv, ht, _⟩ | ⟨hv, ht⟩)
    · exact h1 ⟨hv, ht⟩
    · exact h2 ⟨hv, ht⟩
    · exact h3 ⟨hv, ht⟩

/-- C2: the Ignore Filter returns exactly the elements suppressed by
neither list, where by-value suppression follows the claim's matching rule
(`suppressesByValue`): color value-ignores are flag-kind-specific and
compare the hex color extracted from `details`, while a `text-no-style`
value-ignore suppresses both text flag kinds regardless of value. -/
theorem C2_ignore_filter_exact (els : List UnboundElement) (ignoredByIds : List String)
    (ignoredByValues : List ValueIgnore) (el : UnboundElement) :
    el ∈ filteredUnboundElements els ignoredByIds ignoredByValues ↔
      el ∈ els ∧ el.id ∉ ignoredByIds ∧ ∀ ig ∈ ignoredByValues, ¬ suppressesByValue ig el := by
  rw [filteredUnboundElements, List.mem_filter]
  constructor
  · rintro ⟨hmem, hf⟩
    simp only [Bool.and_eq_true, Bool.not_eq_true'] at hf
    obtain ⟨hid, hval⟩ := hf
    refine ⟨hmem, ?_, ?_⟩
    · intro hin
      have hcontra : ignoredByIds.contains el.id = true := List.elem_iff.2 hin
      rw [hcontra] at hid
      cases hid
    · intro ig hig hsup
      have hany : ignoredByValues.any (fun ig => matchesValueIgnore ig el) = true :=
        List.any_eq_true.2 ⟨ig, hig, (matchesValueIgnore_iff ig el).2 hsup⟩
      rw [hany] at hval
      cases hval
  · rintro ⟨hmem, hid, hval⟩
    refine ⟨hmem, ?_⟩
    simp only [Bool.and_eq_true, Bool.not_eq_true']
    constructor
    · cases hcon : ignoredByIds.contains el.id
      · rfl
      · exact absurd (List.elem_iff.1 hcon) hid
    · cases hany : ignoredByValues.any (fun ig => matchesValueIgnore ig el)
      · rfl
      · obtain ⟨ig, hig, hm⟩ := List.any_eq_true.1 hany
        exact absurd ((matchesValueIgnore_iff ig el).1 hm) (hval ig hig)

/-! ## C3 -/

/-- C3, counterexample: on a one-page document named "Cover", the trace has
no scan event preceding the page's progress notification — the progress
message is posted before the page is scanned, refuting "emitted after that
page's scan completes". -/
theorem C3_progress_before_scan_cex :
    documentScanTrace [demoPageA] =
      [.progress 1 1 "Cover", .scanPage "Cover", .yieldToUI] ∧
    ¬ (∃ j k : ℕ, j < k ∧
        (documentScanTrace [demoPageA]).get? j = some (.scanPage "Cover") ∧
        (documentScanTrace [demoPageA]).get? k = some (.progress 1 1 "Cover")) := by
  refine ⟨rfl, ?_⟩
  rintro ⟨j, k, hjk, hj, hk⟩
  have htr : documentScanTrace [demoPageA] =
      [.progress 1 1 "Cover", .scanPage "Cover", .yieldToUI] := rfl
  rw [htr] at hj hk
  have hk3 : k < 3 := by
    by_contra hge
    rw [List.get?_eq_none.2 (by simpa using Nat.le_of_not_lt hge)] at hk
    cases hk
  interval_cases k <;> interval_cases j <;> exact absurd hk (by decide)

theorem docScanLoop_length (total : ℕ) (ps : List FNode) :
    ∀ i0 : ℕ, (docScanLoop total i0 ps).length = 3 * ps.length := by
  induction ps with
  | nil => intro i0; rfl
  | cons p rest ih =>
    intro i0
    show (docScanLoop total i0 (p :: rest)).length = 3 * (rest.length + 1)
    simp only [docScanLoop, List.length_cons, ih (i0 + 1)]
    omega

theorem docScanLoop_get (total : ℕ) (ps : List FNode) :
    ∀ (i0 j : ℕ) (h : j < ps.length),
      (docScanLoop total i0 ps).get? (3 * j) =
          some (.progress (i0 + j + 1) total (ps.get ⟨j, h⟩).name) ∧
        (docScanLoop total i0 ps).get? (3 * j + 1) = some (.scanPage (ps.get ⟨j, h⟩).name) ∧
        (docScanLoop total i0 ps).get? (3 * j + 2) = some .yieldToUI := by
  induction ps with
  | nil => intro i0 j h; simp at h
  | cons p rest ih =>
    intro i0 j h
    match j with
    | 0 => exact ⟨rfl, rfl, rfl⟩
    | j' + 1 =>
      have h' : j' < rest.length := Nat.lt_of_succ_lt_succ h
      obtain ⟨g1, g2, g3⟩ := ih (i0 + 1) j' h'
      have e1 : 3 * (j' + 1) = 3 * j' + 2 + 1 := by ring
      have e2 : 3 * (j' + 1) + 1 = (3 * j' + 1) + 2 + 1 := by ring
      have e3 : 3 * (j' + 1) + 2 = (3 * j' + 2) + 2 + 1 := by ring
      refine ⟨?_, ?_, ?_⟩
      · rw [e1]
        show (docScanLoop total (i0 + 1) rest).get? (3 * j') = _
        rw [g1]
        have harith : i0 + 1 + j' + 1 = i0 + (j' + 1) + 1 := by omega
        rw [harith]
        rfl
      · rw [e2]
        show (docScanLoop total (i0 + 1) rest).get? (3 * j' + 1) = _
        rw [g2]
        rfl
      · rw [e3]
        show (docScanLoop total (i0 + 1) rest).get? (3 * j' + 2) = _
        rw [g3]

/-- C3, amended: during a document-scope scan the pages are processed
sequentially in order, but each page's progress notification
`{current := i+1, total, pageName}` is emitted immediately BEFORE that
page's scan (the scan follows it, and the yield to the event loop follows
the scan); `selectionInfo` equals `"<N> pages"`. -/
theorem C3_document_scan_order (allPages selection : List FNode) (currentPage : FNode)
    (i : ℕ) (h : i < allPages.length) :
    (documentScanTrace allPages).get? (3 * i) =
        some (.progress (i + 1) allPages.length (allPages.get ⟨i, h⟩).name) ∧
      (documentScanTrace allPages).get? (3 * i + 1) =
        some (.scanPage (allPages.get ⟨i, h⟩).name) ∧
      (documentScanTrace allPages).get? (3 * i + 2) = some .yieldToUI ∧
      (documentScanTrace allPages).length = 3 * allPages.length ∧
      (getVariableCollectionsScanPhase .document selection allPages currentPage).2 =
        some (toString allPages.length ++ " pages") := by
  obtain ⟨g1, g2, g3⟩ := docScanLoop_get allPages.length allPages 0 i h
  refine ⟨by simpa using g1, g2, g3, docScanLoop_length _ _ _, ?_⟩
  simp [getVariableCollectionsScanPhase]

/-- Witness for C3's amended ordering on a concrete two-page document. -/
theorem C3_document_scan_order_witness :
    (1 : ℕ) < ([demoPageA, demoPageB] : List FNode).length ∧
      (documentScanTrace [demoPageA, demoPageB]).get? 3 =
          some (.progress 2 2 "Components") ∧
        (documentScanTrace [demoPageA, demoPageB]).get? 4 = some (.scanPage "Components") ∧
        (documentScanTrace [demoPageA, demoPageB]).get? 5 = some .yieldToUI := by
  have hlt : (1 : ℕ) < ([demoPageA, demoPageB] : List FNode).length := by decide
  obtain ⟨g1, g2, g3, _, _⟩ :=
    C3_document_scan_order [demoPageA, demoPageB] [] demoPageA 1 hlt
  exact ⟨hlt, by simpa using g1, by simpa using g2, by simpa using g3⟩

/-! ## C9 -/

theorem stripHash_of_ne (c : Char) (t : List Char) (hc : c ≠ '#') :
    stripHash (c :: t) = c :: t := by
  unfold stripHash
  split
  · next heq =>
    cases heq
    exact absurd rfl hc
  · rfl

theorem mem_hexDigits_isHex : ∀ c ∈ hexDigits, isHexDigitChar c = true := by decide

theorem mem_hexDigits_ne_hash : ∀ c ∈ hexDigits, c ≠ '#' := by decide

theorem natHexPadded_pair_upper :
    ∀ a ∈ hexDigits, ∀ b ∈ hexDigits,
      (natHexPadded (parseHexPair a b)).map Char.toUpper = [a.toUpper, b.toUpper] := by
  decide

theorem natHexPadded_shape : ∀ k < 256,
    ((natHexPadded k).map Char.toUpper).length = 2 ∧
      ((natHexPadded k).map Char.toUpper).all isUpperHexDigit = true := by
  decide

theorem jsRound_div255 (k : ℕ) : jsRound ((k : ℚ) / 255 * 255) = (k : ℤ) := by
  have h : ((k : ℚ) / 255) * 255 = (k : ℚ) := by field_simp
  rw [jsRound, h, add_comm, Int.floor_add_nat]
  norm_num

theorem toHexComponent_div255 (k : ℕ) : toHexComponent ((k : ℚ) / 255) = natHexPadded k := by
  simp only [toHexComponent, jsIntToHexChars, jsRound_div255, natHexPadded]
  rw [if_neg (by omega : ¬ (k : ℤ) < 0)]
  simp

theorem jsRound_bounds (r : ℚ) (h0 : 0 ≤ r) (h1 : r ≤ 1) :
    0 ≤ jsRound (r * 255) ∧ jsRound (r * 255) ≤ 255 := by
  constructor
  · exact Int.le_floor.2 (by push_cast; nlinarith)
  · have h : jsRound (r * 255) < 256 := Int.floor_lt.2 (by push_cast; nlinarith)
    omega

theorem toHexComponent_bounded (r : ℚ) (h0 : 0 ≤ r) (h1 : r ≤ 1) :
    ∃ k : ℕ, k < 256 ∧ toHexComponent r = natHexPadded k := by
  obtain ⟨hge, hle⟩ := jsRound_bounds r h0 h1
  refine ⟨(jsRound (r * 255)).toNat, by omega, ?_⟩
  simp only [toHexComponent, jsIntToHexChars, natHexPadded]
  rw [if_neg (by omega : ¬ jsRound (r * 255) < 0)]

theorem hexToRgb_of_stripHash (hx : String) (c1 c2 c3 c4 c5 c6 : Char)
    (hd : stripHash hx.data = [c1, c2, c3, c4, c5, c6])
    (h1 : isHexDigitChar c1 = true) (h2 : isHexDigitChar c2 = true)
    (h3 : isHexDigitChar c3 = true) (h4 : isHexDigitChar c4 = true)
    (h5 : isHexDigitChar c5 = true) (h6 : isHexDigitChar c6 = true) :
    hexToRgb hx =
      ⟨(parseHexPair c1 c2 : ℚ) / 255, (parseHexPair c3 c4 : ℚ) / 255,
        (parseHexPair c5 c6 : ℚ) / 255, 1⟩ := by
  unfold hexToRgb
  rw [hd]
  simp [h1, h2, h3, h4, h5, h6]

theorem rgbToHex_pairs (p1 p2 p3 : ℕ) :
    rgbToHex ((p1 : ℚ) / 255) ((p2 : ℚ) / 255) ((p3 : ℚ) / 255) =
      String.mk ('#' ::
        ((natHexPadded p1).map Char.toUpper ++ (natHexPadded p2).map Char.toUpper ++
          (natHexPadded p3).map Char.toUpper)) := by
  unfold rgbToHex
  rw [toHexComponent_div255, toHexComponent_div255, toHexComponent_div255]
  simp

/-- C9: the color codec round-trips — for any string of an optional `'#'`
followed by six hex digits, feeding `hexToRgb`'s components back through
`rgbToHex` returns `'#'` plus the same six digits uppercased; and on
inputs in the 0-1 range `rgbToHex` always produces a `'#'` plus six
uppercase hex digits. -/
theorem C9_color_codec_roundtrip :
    (∀ c1 c2 c3 c4 c5 c6 : Char, c1 ∈ hexDigits → c2 ∈ hexDigits → c3 ∈ hexDigits →
        c4 ∈ hexDigits → c5 ∈ hexDigits → c6 ∈ hexDigits →
        rgbToHex (hexToRgb (String.mk ['#', c1, c2, c3, c4, c5, c6])).r
            (hexToRgb (String.mk ['#', c1, c2, c3, c4, c5, c6])).g
            (hexToRgb (String.mk ['#', c1, c2, c3, c4, c5, c6])).b =
          String.mk ('#' :: ([c1, c2, c3, c4, c5, c6].map Char.toUpper)) ∧
        rgbToHex (hexToRgb (String.mk [c1, c2, c3, c4, c5, c6])).r
            (hexToRgb (String.mk [c1, c2, c3, c4, c5, c6])).g
            (hexToRgb (String.mk [c1, c2, c3, c4, c5, c6])).b =
          String.mk ('#' :: ([c1, c2, c3, c4, c5, c6].map Char.toUpper))) ∧
    (∀ r g b : ℚ, 0 ≤ r → r ≤ 1 → 0 ≤ g → g ≤ 1 → 0 ≤ b → b ≤ 1 →
        hexOutputShape (rgbToHex r g b) = true) := by
  constructor
  · intro c1 c2 c3 c4 c5 c6 m1 m2 m3 m4 m5 m6
    have e1 := mem_hexDigits_isHex c1 m1
    have e2 := mem_hexDigits_isHex c2 m2
    have e3 := mem_hexDigits_isHex c3 m3
    have e4 := mem_hexDigits_isHex c4 m4
    have e5 := mem_hexDigits_isHex c5 m5
    have e6 := mem_hexDigits_isHex c6 m6
    have hu :
        String.mk ('#' ::
            ((natHexPadded (parseHexPair c1 c2)).map Char.toUpper ++
              (natHexPadded (parseHexPair c3 c4)).map Char.toUpper ++
              (natHexPadded (parseHexPair c5 c6)).map Char.toUpper)) =
          String.mk ('#' :: ([c1, c2, c3, c4, c5, c6].map Char.toUpper)) := by
      rw [natHexPadded_pair_upper c1 m1 c2 m2, natHexPadded_pair_upper c3 m3 c4 m4,
        natHexPadded_pair_upper c5 m5 c6 m6]
      rfl
    constructor
    · have hd : stripHash (String.mk ['#', c1, c2, c3, c4, c5, c6]).data =
          [c1, c2, c3, c4, c5, c6] := rfl
      rw [hexToRgb_of_stripHash _ c1 c2 c3 c4 c5 c6 hd e1 e2 e3 e4 e5 e6]
      rw [show (⟨(parseHexPair c1 c2 : ℚ) / 255, (parseHexPair c3 c4 : ℚ) / 255,
          (parseHexPair c5 c6 : ℚ) / 255, 1⟩ : RGBA).r = (parseHexPair c1 c2 : ℚ) / 255 from rfl]
      rw [rgbToHex_pairs]
      exact hu
    · have hd : stripHash (String.mk [c1, c2, c3, c4, c5, c6]).data =
          [c1, c2, c3, c4, c5, c6] :=
        stripHash_of_ne c1 _ (mem_hexDigits_ne_hash c1 m1)
      rw [hexToRgb_of_stripHash _ c1 c2 c3 c4 c5 c6 hd e1 e2 e3 e4 e5 e6]
      rw [rgbToHex_pairs]
      exact hu
  · intro r g b hr0 hr1 hg0 hg1 hb0 hb1
    obtain ⟨kr, hkr, er⟩ := toHexComponent_bounded r hr0 hr1
    obtain ⟨kg, hkg, eg⟩ := toHexComponent_bounded g hg0 hg1
    obtain ⟨kb, hkb, eb⟩ := toHexComponent_bounded b hb0 hb1
    obtain ⟨lr, ar⟩ := natHexPadded_shape kr hkr
    obtain ⟨lg, ag⟩ := natHexPadded_shape kg hkg
    obtain ⟨lb, ab⟩ := natHexPadded_shape kb hkb
    unfold rgbToHex hexOutputShape
    rw [er, eg, eb]
    simp [List.all_append, lr, lg, lb, ar, ag, ab]

/-- Witness for C9 at the mixed-case input `"#a1B2c3"` and at
`(r, g, b) = (1/2, 0, 1)`. -/
theorem C9_color_codec_roundtrip_witness :
    rgbToHex (hexToRgb "#a1B2c3").r (hexToRgb "#a1B2c3").g (hexToRgb "#a1B2c3").b =
        "#A1B2C3" ∧
      hexOutputShape (rgbToHex (1/2) 0 1) = true := by
  constructor
  · have h := (C9_color_codec_roundtrip.1 'a' '1' 'B' '2' 'c' '3'
      (by decide) (by decide) (by decide) (by decide) (by decide) (by decide)).1
    have hs : ("#a1B2c3" : String) = String.mk ['#', 'a', '1', 'B', '2', 'c', '3'] := rfl
    rw [hs, h]
    decide
  · exact C9_color_codec_roundtrip.2 (1/2) 0 1 (by norm_num) (by norm_num) (by norm_num)
      (by norm_num) (by norm_num) (by norm_num)

end TokenScanner
